import Mathlib

/-!
Verification of the checkpoint save/load helper, the autograd demonstration and
the training loop of the `dtu_mlops` exercise notebooks
(`6_Saving_and_Loading_Models.ipynb`, `3_Training_Neural_Networks.ipynb`).

Parameter tensors are modelled exactly (shape plus a value list); tensor values
are taken in `ℚ`, idealising the floating-point values whose exact numerics no
claim depends on.  Random weight initialisation (`torch.randn` inside the layer
constructors) is modelled by an explicit stream `g : Gen` of draw values
together with a running draw position, so that two constructions may use
different randomness.  Fallible Python code (file access, dictionary access,
`load_state_dict`) is embedded in `Except`.
-/

namespace DtuMlops

/-- Association-list lookup keyed by decidable equality, the embedding of
Python dictionary access (first matching key wins). -/
def alookup {α β : Type} [DecidableEq α] (k : α) : List (α × β) → Option β
  | [] => none
  | (k₁, v) :: rest => if k₁ = k then some v else alookup k rest

@[simp] theorem alookup_nil {α β : Type} [DecidableEq α] (k : α) :
    alookup (β := β) k [] = none := rfl

@[simp] theorem alookup_cons {α β : Type} [DecidableEq α] (k k₁ : α) (v : β)
    (rest : List (α × β)) :
    alookup k ((k₁, v) :: rest) = if k₁ = k then some v else alookup k rest := rfl

instance {ε α : Type} [DecidableEq ε] [DecidableEq α] :
    DecidableEq (Except ε α) := fun a b =>
  match a, b with
  | .error e₁, .error e₂ =>
    if h : e₁ = e₂ then .isTrue (by rw [h])
    else .isFalse fun he => h (Except.error.inj he)
  | .error _, .ok _ => .isFalse fun he => Except.noConfusion he
  | .ok _, .error _ => .isFalse fun he => Except.noConfusion he
  | .ok a₁, .ok a₂ =>
    if h : a₁ = a₂ then .isTrue (by rw [h])
    else .isFalse fun he => h (Except.ok.inj he)

/-- Stream of random draw values, modelling the randomness consumed by
`torch.randn` during weight initialisation. -/
def Gen : Type := Nat → ℚ

/-- Number of elements of a tensor of the given shape. -/
def numel (shape : List Nat) : Nat := shape.prod

/-- A parameter tensor: its shape and its (flattened) values. -/
structure Tensor where
  shape : List Nat
  data : List ℚ
deriving DecidableEq

/-- Fresh randomly-initialised tensor of a given shape: the embedding of a
`torch.randn`-style draw taking `numel shape` values from the stream `g`
starting at position `pos`. -/
def randnT (shape : List Nat) (g : Gen) (pos : Nat) : Tensor :=
  ⟨shape, (List.range (numel shape)).map fun i => g (pos + i)⟩

@[simp] theorem randnT_shape (shape : List Nat) (g : Gen) (pos : Nat) :
    (randnT shape g pos).shape = shape := rfl

/-- An `nn.Linear(in_features, out_features)` module: a weight matrix of shape
`[out_features, in_features]` and a bias vector of shape `[out_features]`. -/
structure Linear where
  in_features : Nat
  out_features : Nat
  weight : Tensor
  bias : Tensor
deriving DecidableEq

/-- Construction of `nn.Linear(inF, outF)` with fresh random parameters; the
second component is the stream position after the draws. -/
def linearNew (inF outF : Nat) (g : Gen) (pos : Nat) : Linear × Nat :=
  (⟨inF, outF, randnT [outF, inF] g pos, randnT [outF] g (pos + outF * inF)⟩,
    pos + outF * inF + outF)

@[simp] theorem linearNew_in (inF outF : Nat) (g : Gen) (pos : Nat) :
    (linearNew inF outF g pos).1.in_features = inF := rfl

@[simp] theorem linearNew_out (inF outF : Nat) (g : Gen) (pos : Nat) :
    (linearNew inF outF g pos).1.out_features = outF := rfl

@[simp] theorem linearNew_weight (inF outF : Nat) (g : Gen) (pos : Nat) :
    (linearNew inF outF g pos).1.weight = randnT [outF, inF] g pos := rfl

@[simp] theorem linearNew_bias (inF outF : Nat) (g : Gen) (pos : Nat) :
    (linearNew inF outF g pos).1.bias = randnT [outF] g (pos + outF * inF) := rfl

/-- Parameter name in a `state_dict`.  The names appearing in the source are
the strings `"hidden_layers.<i>.weight"`, `"hidden_layers.<i>.bias"`,
`"output.weight"` and `"output.bias"`; they are modelled by this structured
type, whose rendering `PKey.render` is injective on the keys in play. -/
inductive PKey where
  | hidden (i : Nat) (isWeight : Bool)
  | output (isWeight : Bool)
deriving DecidableEq

/-- String rendering of a parameter name, as printed by the notebook. -/
def PKey.render : PKey → String
  | .hidden i true => "hidden_layers." ++ toString i ++ ".weight"
  | .hidden i false => "hidden_layers." ++ toString i ++ ".bias"
  | .output true => "output.weight"
  | .output false => "output.bias"

/-- A `state_dict`: the ordered mapping from parameter names to tensors. -/
def StateDict : Type := List (PKey × Tensor)

instance : DecidableEq StateDict :=
  inferInstanceAs (DecidableEq (List (PKey × Tensor)))

/-- Modelled from the spec: `fc_model.py` is imported by the notebook but not
part of the packed sources.  `fc_model.Network(input_size, output_size,
hidden_layers)` builds, per the spec's "list of hidden-layer widths" and the
module tree printed in the notebook, a `ModuleList` of hidden `Linear` layers
`Linear(input_size, hidden_layers[0]), Linear(hidden_layers[0],
hidden_layers[1]), …`, plus an output layer
`Linear(hidden_layers[-1], output_size)` and a `Dropout(p=0.5)`.
`mkLayers` builds the hidden layers, threading the draw position. -/
def mkLayers (inF : Nat) (hs : List Nat) (g : Gen) (pos : Nat) : List Linear × Nat :=
  match hs with
  | [] => ([], pos)
  | h :: rest =>
    let l := linearNew inF h g pos
    let r := mkLayers h rest g l.2
    (l.1 :: r.1, r.2)

@[simp] theorem mkLayers_nil (inF : Nat) (g : Gen) (pos : Nat) :
    mkLayers inF [] g pos = ([], pos) := rfl

@[simp] theorem mkLayers_cons (inF h : Nat) (rest : List Nat) (g : Gen) (pos : Nat) :
    mkLayers inF (h :: rest) g pos =
      ((linearNew inF h g pos).1 :: (mkLayers h rest g (linearNew inF h g pos).2).1,
        (mkLayers h rest g (linearNew inF h g pos).2).2) := rfl

/-- The fully-connected network of `fc_model`: hidden layers, the output layer
and the dropout probability (the dropout has no parameters). -/
structure Network where
  input_size : Nat
  output_size : Nat
  hidden_layers : List Linear
  output : Linear
  drop_p : ℚ
deriving DecidableEq

/-- Modelled from the spec: construction of `fc_model.Network` on a nonempty
width list `h0 :: rest` (the Python constructor indexes `hidden_layers[0]` and
`hidden_layers[-1]`). -/
def networkNew! (input_size output_size h0 : Nat) (rest : List Nat)
    (g : Gen) (pos : Nat) : Network :=
  let hl := mkLayers input_size (h0 :: rest) g pos
  ⟨input_size, output_size, hl.1,
    (linearNew ((h0 :: rest).getLast (by simp)) output_size g hl.2).1, 1 / 2⟩

/-- Modelled from the spec: `fc_model.Network(input_size, output_size, hidden)`
as called with an arbitrary width list; an empty list makes the Python
constructor raise (`hidden_layers[0]` is an `IndexError`), modelled by
`none`. -/
def networkNew (input_size output_size : Nat) (hidden : List Nat)
    (g : Gen) (pos : Nat) : Option Network :=
  match hidden with
  | [] => none
  | h0 :: rest => some (networkNew! input_size output_size h0 rest g pos)

/-- Entries of the `state_dict` contributed by the hidden layers, starting at
module index `idx`. -/
def hiddenEntries : Nat → List Linear → List (PKey × Tensor)
  | _, [] => []
  | idx, l :: rest =>
    (.hidden idx true, l.weight) :: (.hidden idx false, l.bias) ::
      hiddenEntries (idx + 1) rest

@[simp] theorem hiddenEntries_nil (idx : Nat) : hiddenEntries idx [] = [] := rfl

@[simp] theorem hiddenEntries_cons (idx : Nat) (l : Linear) (rest : List Linear) :
    hiddenEntries idx (l :: rest) =
      (.hidden idx true, l.weight) :: (.hidden idx false, l.bias) ::
        hiddenEntries (idx + 1) rest := rfl

/-- The model's `state_dict`: weight and bias of every hidden layer in module
order, then of the output layer — exactly the key order the notebook prints. -/
def stateDict (n : Network) : StateDict :=
  hiddenEntries 0 n.hidden_layers ++
    [(.output true, n.output.weight), (.output false, n.output.bias)]

/-- Shape view of a `state_dict`: each parameter name with its tensor shape. -/
def shapesOf (sd : StateDict) : List (PKey × List Nat) :=
  sd.map fun kt => (kt.1, kt.2.shape)

/-- Expected hidden-layer parameter shapes for input width `inF` and the given
widths, starting at module index `idx`: layer `i` has weight shape
`[width_i, previous width]` and bias shape `[width_i]`. -/
def expectedEntries : Nat → Nat → List Nat → List (PKey × List Nat)
  | _, _, [] => []
  | idx, inF, h :: rest =>
    (.hidden idx true, [h, inF]) :: (.hidden idx false, [h]) ::
      expectedEntries (idx + 1) h rest

@[simp] theorem expectedEntries_nil (idx inF : Nat) :
    expectedEntries idx inF [] = [] := rfl

@[simp] theorem expectedEntries_cons (idx inF h : Nat) (rest : List Nat) :
    expectedEntries idx inF (h :: rest) =
      (.hidden idx true, [h, inF]) :: (.hidden idx false, [h]) ::
        expectedEntries (idx + 1) h rest := rfl

/-- Parameter shapes of the network the checkpoint hyperparameters describe:
the spec's "shapes consistent with the reconstructed model". -/
def expectedShapes (input_size output_size : Nat) (hidden : List Nat) :
    List (PKey × List Nat) :=
  expectedEntries 0 input_size hidden ++
    [(.output true, [output_size, hidden.getLastD input_size]),
      (.output false, [output_size])]

/-- Error report of `Module.load_state_dict` (strict mode), as raised in the
traceback recorded in the notebook: size mismatches, missing keys and
unexpected keys. -/
structure LoadReport where
  sizeMismatches : List (PKey × List Nat × List Nat)
  missingKeys : List PKey
  unexpectedKeys : List PKey
deriving DecidableEq

/-- Report computed from the model's parameter shapes `msh` and the incoming
`state_dict` shapes `ssh`; only shapes and keys are consulted. -/
def reportOf (msh ssh : List (PKey × List Nat)) : LoadReport where
  sizeMismatches := msh.filterMap fun ks =>
    match alookup ks.1 ssh with
    | some s => if s = ks.2 then none else some (ks.1, s, ks.2)
    | none => none
  missingKeys := (msh.map Prod.fst).filter fun k => (alookup k ssh).isNone
  unexpectedKeys := (ssh.map Prod.fst).filter fun k => (alookup k msh).isNone

/-- Emptiness of a load report: "All keys matched successfully". -/
def LoadReport.isEmpty (r : LoadReport) : Bool :=
  r.sizeMismatches.isEmpty && r.missingKeys.isEmpty && r.unexpectedKeys.isEmpty

/-- Report produced by loading `sd` into network `n`. -/
def loadReport (n : Network) (sd : StateDict) : LoadReport :=
  reportOf (shapesOf (stateDict n)) (shapesOf sd)

/-- Copy into a `Linear` at hidden index `idx` the tensors the `state_dict`
holds for it (parameters not present are left in place). -/
def Linear.loadFrom (l : Linear) (idx : Nat) (sd : StateDict) : Linear :=
  { l with
    weight := (alookup (.hidden idx true) sd).getD l.weight
    bias := (alookup (.hidden idx false) sd).getD l.bias }

/-- Copy the `state_dict` tensors into every hidden layer, starting at module
index `idx`. -/
def applyHidden : Nat → List Linear → StateDict → List Linear
  | _, [], _ => []
  | idx, l :: rest, sd => l.loadFrom idx sd :: applyHidden (idx + 1) rest sd

@[simp] theorem applyHidden_nil (idx : Nat) (sd : StateDict) :
    applyHidden idx [] sd = [] := rfl

@[simp] theorem applyHidden_cons (idx : Nat) (l : Linear) (rest : List Linear)
    (sd : StateDict) :
    applyHidden idx (l :: rest) sd = l.loadFrom idx sd :: applyHidden (idx + 1) rest sd :=
  rfl

/-- Parameter copy phase of `load_state_dict`: every parameter of the model is
overwritten by the checkpoint tensor of the same name. -/
def applySd (n : Network) (sd : StateDict) : Network :=
  { n with
    hidden_layers := applyHidden 0 n.hidden_layers sd
    output :=
      { n.output with
        weight := (alookup (.output true) sd).getD n.output.weight
        bias := (alookup (.output false) sd).getD n.output.bias } }

/-- Strict `Module.load_state_dict`: if any size mismatch, missing key or
unexpected key is found a `RuntimeError` carrying the report is raised;
otherwise all parameters are copied and loading succeeds. -/
def load_state_dict (n : Network) (sd : StateDict) : Except LoadReport Network :=
  if (loadReport n sd).isEmpty then .ok (applySd n sd) else .error (loadReport n sd)

/-- Value stored under a key of the checkpoint dictionary: a dimensionality,
a list of hidden-layer widths, or a `state_dict`. -/
inductive CVal where
  | num (n : Nat)
  | nums (l : List Nat)
  | sd (d : StateDict)
deriving DecidableEq

/-- The checkpoint dictionary, a Python `dict` keyed by strings. -/
def CheckpointDict : Type := List (String × CVal)

/-- The checkpoint dictionary literal built in the notebook cell
(the literals `784` and `10` in the source equal the in-scope model's input
and output dimensionality, so the cell is embedded as a function of that
model):  `input_size`, `output_size`, the `out_features` of each hidden layer
in layer order, and the model's `state_dict`. -/
def checkpoint (model : Network) : CheckpointDict :=
  [("input_size", .num model.input_size),
    ("output_size", .num model.output_size),
    ("hidden_layers", .nums (model.hidden_layers.map Linear.out_features)),
    ("state_dict", .sd (stateDict model))]

/-- File system state: which serialized object, if any, each path holds. -/
def FS : Type := String → Option CheckpointDict

/-- Errors raised by the underlying library or by dictionary access, as they
reach the caller of `load_checkpoint`. -/
inductive PyErr where
  | fileNotFound (path : String)
  | keyError (key : String)
  | typeError (key : String)
  | indexError
  | runtimeError (r : LoadReport)
deriving DecidableEq

/-- Embedding of `torch.save(obj, filepath)`: the file at `filepath` now holds
the object. -/
def torch_save (fs : FS) (filepath : String) (obj : CheckpointDict) : FS :=
  fun p => if p = filepath then some obj else fs p

/-- Embedding of `torch.load(filepath)`: the stored object, or an error when
no file is stored there. -/
def torch_load (fs : FS) (filepath : String) : Except PyErr CheckpointDict :=
  match fs filepath with
  | some d => .ok d
  | none => .error (.fileNotFound filepath)

/-- Python `checkpoint[k]`: the stored value, or a `KeyError`. -/
def dget (d : CheckpointDict) (k : String) : Except PyErr CVal :=
  match alookup k d with
  | some v => .ok v
  | none => .error (.keyError k)

/-- Dimensionality view of a checkpoint value (a non-numeric value would make
the framework call that consumes it raise). -/
def CVal.asNat (v : CVal) (k : String) : Except PyErr Nat :=
  match v with
  | .num n => .ok n
  | _ => .error (.typeError k)

/-- Width-list view of a checkpoint value. -/
def CVal.asNums (v : CVal) (k : String) : Except PyErr (List Nat) :=
  match v with
  | .nums l => .ok l
  | _ => .error (.typeError k)

/-- State-dict view of a checkpoint value. -/
def CVal.asSd (v : CVal) (k : String) : Except PyErr StateDict :=
  match v with
  | .sd d => .ok d
  | _ => .error (.typeError k)

/-- Hyperparameter extraction performed while evaluating the arguments of the
`fc_model.Network(...)` call inside `load_checkpoint`, in source order:
`checkpoint["input_size"]`, `checkpoint["output_size"]`,
`checkpoint["hidden_layers"]`. -/
def extractHyper (d : CheckpointDict) : Except PyErr (Nat × Nat × List Nat) := do
  let i ← (← dget d "input_size").asNat "input_size"
  let o ← (← dget d "output_size").asNat "output_size"
  let h ← (← dget d "hidden_layers").asNums "hidden_layers"
  return (i, o, h)

/-- The `fc_model.Network(i, o, h)` call made by `load_checkpoint`: an
`IndexError` on an empty width list, otherwise the freshly initialised
network. -/
def buildNetwork (g : Gen) (pos : Nat) (i o : Nat) (h : List Nat) :
    Except PyErr Network :=
  match networkNew i o h g pos with
  | some n => .ok n
  | none => .error .indexError

/-- Embedding of `load_checkpoint(filepath)`: load the stored checkpoint,
rebuild the model from its hyperparameters, copy its `state_dict` in, and
return the model; every step's error propagates through the `Except` chain. -/
def load_checkpoint (g : Gen) (pos : Nat) (fs : FS) (filepath : String) :
    Except PyErr Network := do
  let ck ← torch_load fs filepath
  let (i, o, h) ← extractHyper ck
  let model ← buildNetwork g pos i o h
  let sdv ← (← dget ck "state_dict").asSd "state_dict"
  let model ← (load_state_dict model sdv).mapError .runtimeError
  return model

/-- Truth of "control reaches the `fc_model.Network(...)` reconstruction call"
for a given invocation of `load_checkpoint`: `torch.load` and the three
hyperparameter accesses must all have succeeded. -/
def reconstructionRuns (fs : FS) (filepath : String) : Bool :=
  match torch_load fs filepath with
  | .error _ => false
  | .ok d =>
    match extractHyper d with
    | .error _ => false
    | .ok _ => true

/-- Well-formedness of a stored checkpoint, in the spec's terms: the four keys
are present (with values of the hyperparameter kinds), the width list is
nonempty (so the model can be rebuilt at all), and the stored `state_dict`
shape-checks against the parameter shapes of the network those hyperparameters
describe. -/
def ckWF (d : CheckpointDict) : Bool :=
  match alookup "input_size" d, alookup "output_size" d,
      alookup "hidden_layers" d, alookup "state_dict" d with
  | some (.num i), some (.num o), some (.nums h), some (.sd sdv) =>
    match h with
    | [] => false
    | h0 :: rest => (reportOf (expectedShapes i o (h0 :: rest)) (shapesOf sdv)).isEmpty
  | _, _, _, _ => false

/-!
Autograd model for the demonstration in `3_Training_Neural_Networks.ipynb`:
`x = torch.randn(..., requires_grad=True)`, `y = x**2`, `z = y.mean()`,
`z.backward()`, `x.grad`.  A small computation-graph datatype covers the two
operations used, with the backward functions PyTorch registers for them
(`PowBackward0`: upstream gradient times `2·x`; `MeanBackward0`: upstream
scalar gradient broadcast and divided by the element count).
-/

/-- Computation graph of the demonstration: a leaf tensor, an elementwise
square, or a mean reduction to a scalar. -/
inductive Expr where
  | leaf (x : List ℚ)
  | pow2 (e : Expr)
  | mean (e : Expr)

/-- Forward evaluation; `mean` produces a one-element (scalar) tensor. -/
def Expr.eval : Expr → List ℚ
  | .leaf x => x
  | .pow2 e => e.eval.map fun v => v ^ 2
  | .mean e => [e.eval.sum / e.eval.length]

/-- Reverse-mode sweep: push the upstream gradient `gOut` down to the leaf.
`pow2` multiplies elementwise by `2·v` (its forward input `v`); `mean`
broadcasts the scalar upstream gradient divided by the element count. -/
def Expr.vjp : Expr → List ℚ → List ℚ
  | .leaf _, gOut => gOut
  | .pow2 e, gOut => e.vjp (List.zipWith (fun gi vi => gi * (2 * vi)) gOut e.eval)
  | .mean e, gOut => e.vjp (e.eval.map fun _ => gOut.headD 0 / e.eval.length)

/-- A tensor with `requires_grad=True`: its values and its `.grad` slot, which
is `None` until a backward pass writes it. -/
structure TensorVar where
  data : List ℚ
  grad : Option (List ℚ)

/-- Fresh `torch.randn(..., requires_grad=True)` result: no gradient stored. -/
def mkVar (x : List ℚ) : TensorVar := ⟨x, none⟩

/-- The graph built by the notebook: `z = (x**2).mean()`. -/
def zGraph (v : TensorVar) : Expr := .mean (.pow2 (.leaf v.data))

/-- Effect of `z.backward()` on `x`: the backward pass is seeded with the
scalar gradient `1` and the result is stored in `x.grad`. -/
def backward (v : TensorVar) : TensorVar :=
  { v with grad := some ((zGraph v).vjp [1]) }

/-!
Loop model for the training cell of `3_Training_Neural_Networks.ipynb`:

  epochs = 5
  for _ in range(epochs):
      running_loss = 0
      for images, labels in trainloader:
          output = model(images)
          loss = criterion(output, labels)
          loss.backward()
          running_loss += loss.item()
          optimizer.step()
          optimizer.zero_grad()
      else:
          print(f"Training loss: \x7brunning_loss / len(trainloader)\x7d")

The inner `for` is embedded by a generic Python `for … else` construct whose
body may either continue (`Sum.inl`) or `break` (`Sum.inr`); the `else` suite
runs exactly when the iterator is exhausted without a `break`.  The model
state, loss value and parameter update are abstract (`σ`, `lossFn`, `stepFn`);
a printed line is recorded as the rational value it interpolates.
-/

/-- Python `for x in xs: body else: els` over state `σ`: `body` returns
`Sum.inl` to continue or `Sum.inr` to `break`; the `else` suite runs only on
normal exhaustion. -/
def forElse {σ β : Type} (body : σ → β → σ ⊕ σ) (els : σ → σ) :
    List β → σ → σ
  | [], s => els s
  | b :: rest, s =>
    match body s b with
    | .inl s₁ => forElse body els rest s₁
    | .inr s₁ => s₁

@[simp] theorem forElse_nil {σ β : Type} (body : σ → β → σ ⊕ σ) (els : σ → σ)
    (s : σ) : forElse body els [] s = els s := rfl

/-- State of one epoch: the model/optimizer state and `running_loss`, plus the
lines printed so far. -/
structure EpochState (σ : Type) where
  model : σ
  running_loss : ℚ
  printed : List ℚ

/-- Body of the inner loop: compute the loss on the current batch, accumulate
it into `running_loss` and take an optimizer step.  The body contains no
`break`, so it always continues (`Sum.inl`). -/
def innerBody {σ β : Type} (lossFn : σ → β → ℚ) (stepFn : σ → β → σ)
    (s : EpochState σ) (b : β) : EpochState σ ⊕ EpochState σ :=
  .inl { s with model := stepFn s.model b, running_loss := s.running_loss + lossFn s.model b }

/-- The `else` suite: print the epoch's average loss
`running_loss / len(trainloader)`. -/
def printAvg {σ : Type} (nBatches : Nat) (s : EpochState σ) : EpochState σ :=
  { s with printed := s.printed ++ [s.running_loss / nBatches] }

/-- One epoch: reset `running_loss` to `0`, run the inner `for … else` over
the batches. -/
def runEpoch {σ β : Type} (lossFn : σ → β → ℚ) (stepFn : σ → β → σ)
    (batches : List β) (m : σ) (printed : List ℚ) : EpochState σ :=
  forElse (innerBody lossFn stepFn) (printAvg batches.length) batches
    ⟨m, 0, printed⟩

/-- The outer loop `for _ in range(epochs)`. -/
def trainLoop {σ β : Type} (lossFn : σ → β → ℚ) (stepFn : σ → β → σ)
    (batches : List β) : Nat → σ → List ℚ → σ × List ℚ
  | 0, m, printed => (m, printed)
  | k + 1, m, printed =>
    let e := runEpoch lossFn stepFn batches m printed
    trainLoop lossFn stepFn batches k e.model e.printed

/-- The literal `epochs = 5` of the training cell. -/
def epochs : Nat := 5

/-- Lines printed by the whole training cell. -/
def trainPrints {σ β : Type} (lossFn : σ → β → ℚ) (stepFn : σ → β → σ)
    (batches : List β) (m : σ) : List ℚ :=
  (trainLoop lossFn stepFn batches epochs m []).2

/-!
File-system effect trace of the notebooks, for the frame-effect claim.  The
cells of `6_Saving_and_Loading_Models.ipynb` that touch the file system are,
in order: the two `datasets.FashionMNIST("~/.pytorch/F_MNIST_data/",
download=True, …)` calls (train and test split), `torch.save(model.state_dict(),
"checkpoint.pth")`, and `torch.save(checkpoint, "checkpoint.pth")`;
`3_Training_Neural_Networks.ipynb` downloads MNIST to
`"~/.pytorch/MNIST_data/"`.
-/

/-- A file-system effect performed by a notebook cell. -/
inductive FsEffect where
  | datasetDownload (root : String)
  | saveFile (path : String)
deriving DecidableEq

/-- Effects of `6_Saving_and_Loading_Models.ipynb`, in cell order. -/
def nb6Effects : List FsEffect :=
  [.datasetDownload "~/.pytorch/F_MNIST_data/",
    .datasetDownload "~/.pytorch/F_MNIST_data/",
    .saveFile "checkpoint.pth",
    .saveFile "checkpoint.pth"]

/-- Effects of `3_Training_Neural_Networks.ipynb`, in cell order. -/
def nb3Effects : List FsEffect :=
  [.datasetDownload "~/.pytorch/MNIST_data/"]

/-- Effects of executing both notebooks. -/
def notebookEffects : List FsEffect := nb3Effects ++ nb6Effects

/-!
Structural lemmas.
-/

theorem alookup_isSome_iff {α β : Type} [DecidableEq α] (k : α) :
    ∀ l : List (α × β), (alookup k l).isSome ↔ k ∈ l.map Prod.fst := by
  intro l
  induction l with
  | nil => simp
  | cons kv rest ih =>
    obtain ⟨k₁, v⟩ := kv
    simp only [alookup_cons, List.map_cons, List.mem_cons]
    by_cases hk : k₁ = k
    · subst hk; simp
    · have hk₂ : ¬k = k₁ := fun h => hk h.symm
      simp [hk, hk₂, ih]

theorem alookup_eq_of_nodup {α β : Type} [DecidableEq α] {k : α} {v : β} :
    ∀ {l : List (α × β)}, (l.map Prod.fst).Nodup → (k, v) ∈ l →
      alookup k l = some v := by
  intro l
  induction l with
  | nil => simp
  | cons kv rest ih =>
    obtain ⟨k₁, v₁⟩ := kv
    intro hnd hmem
    simp only [List.map_cons, List.nodup_cons] at hnd
    rcases List.mem_cons.mp hmem with h | h
    · obtain ⟨rfl, rfl⟩ := Prod.mk.inj h
      simp
    · have hk : k₁ ≠ k := by
        rintro rfl
        exact hnd.1 (List.mem_map.mpr ⟨(k₁, v), h, rfl⟩)
      simp [hk, ih hnd.2 h]

/-- Keys of the shape view are the keys of the `state_dict`. -/
theorem shapesOf_keys (sd : StateDict) :
    (shapesOf sd).map Prod.fst = sd.map Prod.fst := by
  simp [shapesOf, List.map_map]

/-- The widths recorded in the constructed hidden layers are the requested
widths, in order. -/
theorem mkLayers_map_out :
    ∀ (hs : List Nat) (inF : Nat) (g : Gen) (pos : Nat),
      (mkLayers inF hs g pos).1.map Linear.out_features = hs := by
  intro hs
  induction hs with
  | nil => intro inF g pos; rfl
  | cons h rest ih => intro inF g pos; simp [ih]

/-- Shape view of the hidden-layer `state_dict` entries of a freshly
constructed layer stack. -/
theorem hiddenEntries_mkLayers_shapes :
    ∀ (hs : List Nat) (idx inF : Nat) (g : Gen) (pos : Nat),
      (hiddenEntries idx (mkLayers inF hs g pos).1).map (fun kt => (kt.1, kt.2.shape)) =
        expectedEntries idx inF hs := by
  intro hs
  induction hs with
  | nil => intro idx inF g pos; rfl
  | cons h rest ih => intro idx inF g pos; simp [randnT, ih]

/-- On a nonempty list, `getLastD` is `getLast`. -/
theorem getLastD_cons_eq_getLast (h0 : Nat) (rest : List Nat) (d : Nat) :
    (h0 :: rest).getLastD d = (h0 :: rest).getLast (by simp) := by
  induction rest generalizing h0 with
  | nil => rfl
  | cons h1 rest ih => simpa using ih h1

/-- Parameter shapes of a freshly constructed network are exactly the shapes
the hyperparameters dictate. -/
theorem stateDict_shapes (i o h0 : Nat) (rest : List Nat) (g : Gen) (pos : Nat) :
    shapesOf (stateDict (networkNew! i o h0 rest g pos)) =
      expectedShapes i o (h0 :: rest) := by
  simp only [networkNew!, stateDict, shapesOf, expectedShapes]
  rw [List.map_append, hiddenEntries_mkLayers_shapes,
    getLastD_cons_eq_getLast h0 rest i]
  simp [randnT]

/-- Keys of the expected hidden entries are hidden-layer keys with module
index at least `idx`. -/
theorem mem_keys_expectedEntries :
    ∀ (hs : List Nat) (idx inF : Nat) (k : PKey),
      k ∈ (expectedEntries idx inF hs).map Prod.fst →
        ∃ j b, k = PKey.hidden j b ∧ idx ≤ j := by
  intro hs
  induction hs with
  | nil => simp
  | cons h rest ih =>
    intro idx inF k hk
    simp only [expectedEntries_cons, List.map_cons, List.mem_cons] at hk
    rcases hk with hk | hk | hk
    · exact ⟨idx, true, hk, le_refl idx⟩
    · exact ⟨idx, false, hk, le_refl idx⟩
    · obtain ⟨j, b, rfl, hj⟩ := ih (idx + 1) h k hk
      exact ⟨j, b, rfl, Nat.le_of_succ_le hj⟩

/-- Keys of the expected hidden entries are distinct. -/
theorem nodup_keys_expectedEntries :
    ∀ (hs : List Nat) (idx inF : Nat),
      ((expectedEntries idx inF hs).map Prod.fst).Nodup := by
  intro hs
  induction hs with
  | nil => simp
  | cons h rest ih =>
    intro idx inF
    simp only [expectedEntries_cons, List.map_cons, List.nodup_cons,
      List.mem_cons]
    refine ⟨?_, ?_, ih (idx + 1) h⟩
    · rintro (hmem | hmem)
      · exact absurd hmem (by simp)
      · obtain ⟨j, b, hk, hj⟩ := mem_keys_expectedEntries rest (idx + 1) h _ hmem
        simp only [PKey.hidden.injEq] at hk
        obtain ⟨rfl, -⟩ := hk
        omega
    · intro hmem
      obtain ⟨j, b, hk, hj⟩ := mem_keys_expectedEntries rest (idx + 1) h _ hmem
      simp only [PKey.hidden.injEq] at hk
      obtain ⟨rfl, -⟩ := hk
      omega

/-- Keys of the expected shape list are distinct. -/
theorem nodup_keys_expectedShapes (i o : Nat) (h : List Nat) :
    ((expectedShapes i o h).map Prod.fst).Nodup := by
  simp only [expectedShapes, List.map_append, List.nodup_append]
  refine ⟨nodup_keys_expectedEntries h 0 i, by simp, ?_⟩
  intro k hk hk'
  obtain ⟨j, b, rfl, -⟩ := mem_keys_expectedEntries h 0 i k hk
  simp at hk'

/-- A report of a shape list against itself with distinct keys is empty. -/
theorem reportOf_self_isEmpty {s : List (PKey × List Nat)}
    (hnd : (s.map Prod.fst).Nodup) : (reportOf s s).isEmpty = true := by
  simp only [reportOf, LoadReport.isEmpty, Bool.and_eq_true, List.isEmpty_iff,
    List.filterMap_eq_nil_iff, List.filter_eq_nil_iff]
  refine ⟨⟨?_, ?_⟩, ?_⟩
  · intro ks hks
    obtain ⟨k, sh⟩ := ks
    rw [alookup_eq_of_nodup hnd hks]
    simp
  · intro k hk
    have hs := (alookup_isSome_iff (β := List Nat) k s).mpr hk
    intro hnone
    rw [Option.isNone_iff_eq_none] at hnone
    rw [hnone] at hs
    simp at hs
  · intro k hk
    have hs := (alookup_isSome_iff (β := List Nat) k s).mpr hk
    intro hnone
    rw [Option.isNone_iff_eq_none] at hnone
    rw [hnone] at hs
    simp at hs

/-- An empty report means every model parameter name is present in the
incoming `state_dict`. -/
theorem keys_present_of_isEmpty {msh ssh : List (PKey × List Nat)}
    (h : (reportOf msh ssh).isEmpty = true) :
    ∀ k ∈ msh.map Prod.fst, (alookup k ssh).isSome := by
  simp only [reportOf, LoadReport.isEmpty, Bool.and_eq_true, List.isEmpty_iff,
    List.filterMap_eq_nil_iff, List.filter_eq_nil_iff] at h
  intro k hk
  have hm := h.1.2 k hk
  cases halo : alookup k ssh with
  | none => simp [halo] at hm
  | some v => simp

/-- Loading writes into the `state_dict` view exactly the looked-up tensors,
keeping the key order of the model. -/
theorem hiddenEntries_applyHidden (sd : StateDict) :
    ∀ (ls : List Linear) (idx : Nat),
      hiddenEntries idx (applyHidden idx ls sd) =
        (hiddenEntries idx ls).map fun kt => (kt.1, (alookup kt.1 sd).getD kt.2) := by
  intro ls
  induction ls with
  | nil => intro idx; rfl
  | cons l rest ih => intro idx; simp [Linear.loadFrom, ih]

/-- The `state_dict` after the copy phase, as a pointwise lookup over the
model's own `state_dict`. -/
theorem stateDict_applySd (n : Network) (sd : StateDict) :
    stateDict (applySd n sd) =
      (stateDict n).map fun kt => (kt.1, (alookup kt.1 sd).getD kt.2) := by
  simp only [stateDict, applySd]
  rw [List.map_append, hiddenEntries_applyHidden]
  simp

/-- Pointwise lookup over a key sequence is value-independent when every key
is found. -/
theorem map_lookup_congr {l₁ l₂ : List (PKey × Tensor)} {sd : StateDict}
    (hkeys : l₁.map Prod.fst = l₂.map Prod.fst)
    (hsome : ∀ k ∈ l₁.map Prod.fst, (alookup k sd).isSome) :
    (l₁.map fun kt => (kt.1, (alookup kt.1 sd).getD kt.2)) =
      l₂.map fun kt => (kt.1, (alookup kt.1 sd).getD kt.2) := by
  induction l₁ generalizing l₂ with
  | nil =>
    have h₂ : l₂ = [] := List.map_eq_nil_iff.mp hkeys.symm
    subst h₂
    rfl
  | cons kt rest ih =>
    obtain ⟨k, t⟩ := kt
    cases l₂ with
    | nil => simp at hkeys
    | cons kt₂ rest₂ =>
      obtain ⟨k₂, t₂⟩ := kt₂
      simp only [List.map_cons, List.cons.injEq] at hkeys
      obtain ⟨rfl, hkeys⟩ := hkeys
      have hk := hsome k (by simp)
      obtain ⟨v, hv⟩ := Option.isSome_iff_exists.mp hk
      simp only [List.map_cons, hv, Option.getD_some, List.cons.injEq]
      exact ⟨trivial, ih hkeys fun k hk => hsome k (by simp [hk])⟩

/-- Pointwise lookup of a list over itself recovers the list when its keys
are distinct. -/
theorem map_lookup_self_aux :
    ∀ l : List (PKey × Tensor), (l.map Prod.fst).Nodup →
      (l.map fun kt => (kt.1, (alookup kt.1 l).getD kt.2)) = l
  | [], _ => rfl
  | (k, t) :: rest, hnd => by
    simp only [List.map_cons, List.nodup_cons] at hnd
    have hk₀ : alookup k ((k, t) :: rest) = some t := by simp
    simp only [List.map_cons, hk₀, Option.getD_some]
    congr 1
    have hcong : ∀ kt₂ ∈ rest,
        (fun kt : PKey × Tensor =>
          (kt.1, (alookup kt.1 ((k, t) :: rest)).getD kt.2)) kt₂ =
          (fun kt : PKey × Tensor => (kt.1, (alookup kt.1 rest).getD kt.2)) kt₂ := by
      intro kt₂ hmem
      have hk : ¬k = kt₂.1 := by
        intro he
        exact hnd.1 (List.mem_map.mpr ⟨kt₂, hmem, he.symm⟩)
      simp [hk]
    rw [List.map_congr_left hcong]
    exact map_lookup_self_aux rest hnd.2

/-- Pointwise lookup over the key sequence of `l₂` itself recovers `l₂` when
its keys are distinct. -/
theorem map_lookup_self {l₁ l₂ : List (PKey × Tensor)}
    (hkeys : l₁.map Prod.fst = l₂.map Prod.fst)
    (hnd : (l₂.map Prod.fst).Nodup) :
    (l₁.map fun kt => (kt.1, (alookup kt.1 l₂).getD kt.2)) = l₂ := by
  have hsome : ∀ k ∈ l₁.map Prod.fst, (alookup (β := Tensor) k l₂).isSome := by
    intro k hk
    exact (alookup_isSome_iff k l₂).mpr (hkeys ▸ hk)
  rw [map_lookup_congr hkeys hsome]
  exact map_lookup_self_aux l₂ hnd

/-- Shape discipline of a single `Linear`: weight of shape
`[out_features, in_features]`, bias of shape `[out_features]`. -/
def wfLinearB (l : Linear) : Bool :=
  (l.weight.shape == [l.out_features, l.in_features]) &&
    (l.bias.shape == [l.out_features])

/-- Shape discipline of a hidden-layer stack fed `inF` input features:
each layer consumes the width produced by its predecessor. -/
def chainB (inF : Nat) : List Linear → Bool
  | [] => true
  | l :: rest => (l.in_features == inF) && wfLinearB l && chainB l.out_features rest

/-- A value of the `Network` class as the program can actually produce it
(constructor output, possibly with its parameter values trained in place):
nonempty hidden stack, chained layer widths, and an output layer consuming
the last hidden width. -/
def Network.wellFormed (n : Network) : Bool :=
  !n.hidden_layers.isEmpty && chainB n.input_size n.hidden_layers &&
    (n.output.in_features ==
      (n.hidden_layers.map Linear.out_features).getLastD n.input_size) &&
    (n.output.out_features == n.output_size) && wfLinearB n.output

/-- Hidden entries of a shape-disciplined stack have the expected shapes. -/
theorem hiddenEntries_shapes_of_chain :
    ∀ (ls : List Linear) (inF idx : Nat), chainB inF ls = true →
      (hiddenEntries idx ls).map (fun kt => (kt.1, kt.2.shape)) =
        expectedEntries idx inF (ls.map Linear.out_features) := by
  intro ls
  induction ls with
  | nil => intro inF idx _; rfl
  | cons l rest ih =>
    intro inF idx hch
    simp only [chainB, wfLinearB, Bool.and_eq_true, beq_iff_eq] at hch
    obtain ⟨⟨hin, hw, hb⟩, hrest⟩ := hch
    simp [hin, hw, hb, ih _ _ hrest]

/-- Parameter shapes of a well-formed network are the shapes dictated by its
own hyperparameters. -/
theorem stateDict_shapes_of_wf {n : Network} (h : n.wellFormed = true) :
    shapesOf (stateDict n) =
      expectedShapes n.input_size n.output_size
        (n.hidden_layers.map Linear.out_features) := by
  simp only [Network.wellFormed, wfLinearB, Bool.and_eq_true, beq_iff_eq] at h
  obtain ⟨⟨⟨⟨-, hch⟩, hoin⟩, hoout⟩, how, hob⟩ := h
  simp only [stateDict, shapesOf, expectedShapes]
  rw [List.map_append, hiddenEntries_shapes_of_chain _ _ _ hch]
  simp [how, hob, hoin, hoout]

/-- Loading succeeds exactly when the report is empty, and then produces the
parameter-copied network. -/
theorem load_state_dict_ok {n : Network} {sd : StateDict}
    (h : (loadReport n sd).isEmpty = true) :
    load_state_dict n sd = .ok (applySd n sd) := by
  simp [load_state_dict, h]

theorem load_state_dict_error {n : Network} {sd : StateDict}
    (h : (loadReport n sd).isEmpty = false) :
    load_state_dict n sd = .error (loadReport n sd) := by
  simp [load_state_dict, h]

theorem load_state_dict_ok_iff (n : Network) (sd : StateDict) :
    (∃ m, load_state_dict n sd = .ok m) ↔ (loadReport n sd).isEmpty = true := by
  constructor
  · rintro ⟨m, hm⟩
    by_contra hne
    rw [load_state_dict_error (Bool.eq_false_iff.mpr hne)] at hm
    exact Except.noConfusion hm
  · intro hemp
    exact ⟨applySd n sd, load_state_dict_ok hemp⟩

/-!
Claims.
-/

/-- Claim C1: the checkpoint written by the save helper is a single serialized
dictionary containing exactly the architecture hyperparameters and the
parameter mapping — the input dimensionality under `"input_size"`, the output
dimensionality under `"output_size"`, the out_features of each hidden layer in
layer order under `"hidden_layers"`, and the model's `state_dict` under
`"state_dict"` — and nothing else; `torch.save` stores exactly this
dictionary.  Stated for a network built with any hyperparameters and any
random initialisation. -/
theorem claim_C1 (i o h0 : Nat) (rest : List Nat) (g : Gen) (pos : Nat)
    (fs : FS) (path : String) :
    (checkpoint (networkNew! i o h0 rest g pos)).map Prod.fst =
      ["input_size", "output_size", "hidden_layers", "state_dict"] ∧
    alookup "input_size" (checkpoint (networkNew! i o h0 rest g pos)) =
      some (.num i) ∧
    alookup "output_size" (checkpoint (networkNew! i o h0 rest g pos)) =
      some (.num o) ∧
    alookup "hidden_layers" (checkpoint (networkNew! i o h0 rest g pos)) =
      some (.nums ((networkNew! i o h0 rest g pos).hidden_layers.map
        Linear.out_features)) ∧
    (networkNew! i o h0 rest g pos).hidden_layers.map Linear.out_features =
      h0 :: rest ∧
    alookup "state_dict" (checkpoint (networkNew! i o h0 rest g pos)) =
      some (.sd (stateDict (networkNew! i o h0 rest g pos))) ∧
    torch_save fs path (checkpoint (networkNew! i o h0 rest g pos)) path =
      some (checkpoint (networkNew! i o h0 rest g pos)) := by
  refine ⟨rfl, ?_, ?_, ?_, ?_, ?_, ?_⟩
  · simp [checkpoint, networkNew!]
  · simp [checkpoint, networkNew!]
  · simp [checkpoint]
  · simpa [networkNew!] using mkLayers_map_out (h0 :: rest) i g pos
  · simp [checkpoint]
  · simp [torch_save]

/-- Claim C2: a `state_dict` saved from `Network(784, 10, [512, 256, 128])`
(under any random initialisation, hence for any parameter values) raises a
size-mismatch `RuntimeError` when loaded into a `Network(784, 10,
[400, 200, 100])`, and loads successfully — all keys matched — into an
identically configured `Network(784, 10, [512, 256, 128])`. -/
theorem claim_C2 (g₁ g₂ g₃ : Gen) (p₁ p₂ p₃ : Nat) :
    (∃ rep, load_state_dict (networkNew! 784 10 400 [200, 100] g₂ p₂)
        (stateDict (networkNew! 784 10 512 [256, 128] g₁ p₁)) = .error rep ∧
      rep.sizeMismatches ≠ [] ∧ rep.missingKeys = [] ∧ rep.unexpectedKeys = []) ∧
    (∃ m, load_state_dict (networkNew! 784 10 512 [256, 128] g₃ p₃)
        (stateDict (networkNew! 784 10 512 [256, 128] g₁ p₁)) = .ok m) := by
  have hrep : loadReport (networkNew! 784 10 400 [200, 100] g₂ p₂)
      (stateDict (networkNew! 784 10 512 [256, 128] g₁ p₁)) =
      reportOf (expectedShapes 784 10 [400, 200, 100])
        (expectedShapes 784 10 [512, 256, 128]) := by
    rw [loadReport, stateDict_shapes, stateDict_shapes]
  have hrep₂ : loadReport (networkNew! 784 10 512 [256, 128] g₃ p₃)
      (stateDict (networkNew! 784 10 512 [256, 128] g₁ p₁)) =
      reportOf (expectedShapes 784 10 [512, 256, 128])
        (expectedShapes 784 10 [512, 256, 128]) := by
    rw [loadReport, stateDict_shapes, stateDict_shapes]
  constructor
  · refine ⟨reportOf (expectedShapes 784 10 [400, 200, 100])
      (expectedShapes 784 10 [512, 256, 128]), ?_, ?_, ?_, ?_⟩
    · rw [← hrep]
      exact load_state_dict_error (by rw [hrep]; decide)
    · decide
    · decide
    · decide
  · rw [load_state_dict_ok_iff, hrep₂]
    decide

/-- Propagation helper: the final `mapError`-and-return stage of
`load_checkpoint` succeeds exactly when `load_state_dict` does. -/
theorem mapError_bind_ok_iff (e : Except LoadReport Network) :
    (∃ m, (e.mapError PyErr.runtimeError >>=
        fun model => pure (f := Except PyErr) model) = .ok m) ↔
      ∃ m, e = .ok m := by
  cases e <;> simp [Except.mapError, Bind.bind, Except.bind, pure, Except.pure]

/-- Claim C3: `load_checkpoint` implements no error recovery and no invariant
enforcement of its own — an error raised at any of its steps (`torch.load`,
the hyperparameter accesses and `fc_model.Network` construction, the
`"state_dict"` access, `load_state_dict`) propagates unchanged to the caller;
nothing is caught, retried, or re-wrapped in a custom error type (the
`PyErr.runtimeError` injection is the embedding of the library's own
`RuntimeError` value, carried unmodified). -/
theorem claim_C3 (g : Gen) (pos : Nat) (fs : FS) (p : String) :
    (∀ e, torch_load fs p = .error e → load_checkpoint g pos fs p = .error e) ∧
    (∀ d e, torch_load fs p = .ok d → extractHyper d = .error e →
      load_checkpoint g pos fs p = .error e) ∧
    (∀ d i o h e, torch_load fs p = .ok d → extractHyper d = .ok (i, o, h) →
      buildNetwork g pos i o h = .error e →
      load_checkpoint g pos fs p = .error e) ∧
    (∀ d i o h n e, torch_load fs p = .ok d → extractHyper d = .ok (i, o, h) →
      buildNetwork g pos i o h = .ok n →
      (dget d "state_dict" >>= fun v => v.asSd "state_dict") = .error e →
      load_checkpoint g pos fs p = .error e) ∧
    (∀ d i o h n sdv r, torch_load fs p = .ok d →
      extractHyper d = .ok (i, o, h) → buildNetwork g pos i o h = .ok n →
      (dget d "state_dict" >>= fun v => v.asSd "state_dict") = .ok sdv →
      load_state_dict n sdv = .error r →
      load_checkpoint g pos fs p = .error (.runtimeError r)) := by
  refine ⟨?_, ?_, ?_, ?_, ?_⟩
  · intro e h₁
    simp [load_checkpoint, h₁, Bind.bind, Except.bind]
  · intro d e h₁ h₂
    simp [load_checkpoint, h₁, h₂, Bind.bind, Except.bind]
  · intro d i o h e h₁ h₂ h₃
    simp [load_checkpoint, h₁, h₂, h₃, Bind.bind, Except.bind]
  · intro d i o h n e h₁ h₂ h₃ h₄
    simp only [Bind.bind] at h₄
    cases hv : dget d "state_dict" with
    | error e₁ =>
      rw [hv] at h₄
      simp only [Except.bind] at h₄
      cases h₄
      simp [load_checkpoint, h₁, h₂, h₃, hv, Bind.bind, Except.bind]
    | ok v =>
      rw [hv] at h₄
      simp only [Except.bind] at h₄
      simp [load_checkpoint, h₁, h₂, h₃, hv, h₄, Bind.bind, Except.bind]
  · intro d i o h n sdv r h₁ h₂ h₃ h₄ h₅
    simp only [Bind.bind] at h₄
    cases hv : dget d "state_dict" with
    | error e₁ =>
      rw [hv] at h₄
      simp only [Except.bind] at h₄
      exact absurd h₄ (by simp)
    | ok v =>
      rw [hv] at h₄
      simp only [Except.bind] at h₄
      simp [load_checkpoint, h₁, h₂, h₃, hv, h₄, h₅, Bind.bind, Except.bind,
        Except.mapError]

/-- Witness for claim C3: on an empty file system the `torch.load` failure is
returned to the caller unchanged. -/
theorem claim_C3_witness :
    load_checkpoint (fun _ => 0) 0 (fun _ => none) "checkpoint.pth" =
      .error (.fileNotFound "checkpoint.pth") :=
  (claim_C3 (fun _ => 0) 0 (fun _ => none) "checkpoint.pth").1
    (.fileNotFound "checkpoint.pth") rfl

/-- Claim C5: in the load half of the helper, the `fc_model.Network`
reconstruction runs only conditionally on the earlier steps having succeeded —
there are calls of `load_checkpoint` (e.g. on a path holding no file) on which
the reconstruction step does not run and the call raises instead. -/
theorem claim_C5 :
    ∃ (fs : FS) (p : String) (g : Gen) (pos : Nat) (e : PyErr),
      load_checkpoint g pos fs p = .error e ∧
        reconstructionRuns fs p = false := by
  refine ⟨fun _ => none, "checkpoint.pth", fun _ => 0, 0,
    .fileNotFound "checkpoint.pth", ?_, rfl⟩
  simp [load_checkpoint, torch_load, Bind.bind, Except.bind]

/-- Claim C4: `load_checkpoint(filepath)` returns a rebuilt model rather than
raising precisely when the stored checkpoint satisfies the only required
invariants — the four keys are present (with hyperparameter-kinded values and
a rebuildable, i.e. nonempty, width list) and the stored `state_dict` shapes
are consistent with the network reconstructed from those hyperparameters;
under this precondition the error branch is unreachable, and without it some
step raises. -/
theorem claim_C4 (g : Gen) (pos : Nat) (fs : FS) (p : String) :
    (∃ m, load_checkpoint g pos fs p = .ok m) ↔
      ∃ d, fs p = some d ∧ ckWF d = true := by
  cases hfs : fs p with
  | none =>
    simp [load_checkpoint, torch_load, hfs, Bind.bind, Except.bind]
  | some d =>
    have htl : torch_load fs p = .ok d := by simp [torch_load, hfs]
    rw [show (∃ dd, some d = some dd ∧ ckWF dd = true) ↔ ckWF d = true by simp]
    cases h₁ : alookup "input_size" d with
    | none =>
      simp [load_checkpoint, htl, extractHyper, dget, ckWF, h₁,
        Bind.bind, Except.bind]
    | some v₁ =>
      cases v₁ with
      | nums l =>
        simp [load_checkpoint, htl, extractHyper, dget, CVal.asNat, ckWF, h₁,
          Bind.bind, Except.bind]
      | sd sdx =>
        simp [load_checkpoint, htl, extractHyper, dget, CVal.asNat, ckWF, h₁,
          Bind.bind, Except.bind]
      | num i =>
        cases h₂ : alookup "output_size" d with
        | none =>
          simp [load_checkpoint, htl, extractHyper, dget, CVal.asNat, ckWF,
            h₁, h₂, Bind.bind, Except.bind]
        | some v₂ =>
          cases v₂ with
          | nums l =>
            simp [load_checkpoint, htl, extractHyper, dget, CVal.asNat, ckWF,
              h₁, h₂, Bind.bind, Except.bind]
          | sd sdx =>
            simp [load_checkpoint, htl, extractHyper, dget, CVal.asNat, ckWF,
              h₁, h₂, Bind.bind, Except.bind]
          | num o =>
            cases h₃ : alookup "hidden_layers" d with
            | none =>
              simp [load_checkpoint, htl, extractHyper, dget, CVal.asNat,
                CVal.asNums, ckWF, h₁, h₂, h₃, Bind.bind, Except.bind]
            | some v₃ =>
              cases v₃ with
              | num nn =>
                simp [load_checkpoint, htl, extractHyper, dget, CVal.asNat,
                  CVal.asNums, ckWF, h₁, h₂, h₃, Bind.bind, Except.bind]
              | sd sdx =>
                simp [load_checkpoint, htl, extractHyper, dget, CVal.asNat,
                  CVal.asNums, ckWF, h₁, h₂, h₃, Bind.bind, Except.bind]
              | nums h =>
                cases h₄ : alookup "state_dict" d with
                | none =>
                  cases h with
                  | nil =>
                    simp [load_checkpoint, htl, extractHyper, dget, CVal.asNat,
                      CVal.asNums, CVal.asSd, buildNetwork, networkNew, ckWF,
                      h₁, h₂, h₃, h₄, Bind.bind, Except.bind, Except.mapError,
                      pure, Except.pure]
                  | cons h0 rest =>
                    simp [load_checkpoint, htl, extractHyper, dget, CVal.asNat,
                      CVal.asNums, CVal.asSd, buildNetwork, networkNew, ckWF,
                      h₁, h₂, h₃, h₄, Bind.bind, Except.bind, Except.mapError,
                      pure, Except.pure]
                | some v₄ =>
                  cases v₄ with
                  | num nn =>
                    cases h with
                    | nil =>
                      simp [load_checkpoint, htl, extractHyper, dget,
                        CVal.asNat, CVal.asNums, CVal.asSd, buildNetwork,
                        networkNew, ckWF, h₁, h₂, h₃, h₄, Bind.bind,
                        Except.bind, Except.mapError, pure, Except.pure]
                    | cons h0 rest =>
                      simp [load_checkpoint, htl, extractHyper, dget,
                        CVal.asNat, CVal.asNums, CVal.asSd, buildNetwork,
                        networkNew, ckWF, h₁, h₂, h₃, h₄, Bind.bind,
                        Except.bind, Except.mapError, pure, Except.pure]
                  | nums ll =>
                    cases h with
                    | nil =>
                      simp [load_checkpoint, htl, extractHyper, dget,
                        CVal.asNat, CVal.asNums, CVal.asSd, buildNetwork,
                        networkNew, ckWF, h₁, h₂, h₃, h₄, Bind.bind,
                        Except.bind, Except.mapError, pure, Except.pure]
                    | cons h0 rest =>
                      simp [load_checkpoint, htl, extractHyper, dget,
                        CVal.asNat, CVal.asNums, CVal.asSd, buildNetwork,
                        networkNew, ckWF, h₁, h₂, h₃, h₄, Bind.bind,
                        Except.bind, Except.mapError, pure, Except.pure]
                  | sd sdv =>
                    cases h with
                    | nil =>
                      simp [load_checkpoint, htl, extractHyper, dget,
                        CVal.asNat, CVal.asNums, CVal.asSd, buildNetwork,
                        networkNew, ckWF, h₁, h₂, h₃, h₄, Bind.bind,
                        Except.bind, Except.mapError, pure, Except.pure]
                    | cons h0 rest =>
                      have hloadrep :
                          loadReport (networkNew! i o h0 rest g pos) sdv =
                            reportOf (expectedShapes i o (h0 :: rest))
                              (shapesOf sdv) := by
                        rw [loadReport, stateDict_shapes]
                      by_cases hemp : (reportOf (expectedShapes i o (h0 :: rest))
                          (shapesOf sdv)).isEmpty = true
                      · have hok := @load_state_dict_ok
                          (networkNew! i o h0 rest g pos) sdv
                          (by rw [hloadrep]; exact hemp)
                        simp [load_checkpoint, htl, extractHyper, dget,
                          CVal.asNat, CVal.asNums, CVal.asSd, buildNetwork,
                          networkNew, ckWF, h₁, h₂, h₃, h₄, hok, hemp,
                          Bind.bind, Except.bind, Except.mapError, pure,
                          Except.pure]
                      · have herr := @load_state_dict_error
                          (networkNew! i o h0 rest g pos) sdv
                          (by rw [hloadrep]; exact (Bool.not_eq_true _).mp hemp)
                        simp [load_checkpoint, htl, extractHyper, dget,
                          CVal.asNat, CVal.asNums, CVal.asSd, buildNetwork,
                          networkNew, ckWF, h₁, h₂, h₃, h₄, herr, hemp,
                          Bind.bind, Except.bind, Except.mapError, pure,
                          Except.pure]

/-- Copying parameters does not change layer widths. -/
theorem applyHidden_map_out (sd : StateDict) :
    ∀ (ls : List Linear) (idx : Nat),
      (applyHidden idx ls sd).map Linear.out_features =
        ls.map Linear.out_features := by
  intro ls
  induction ls with
  | nil => intro idx; rfl
  | cons l rest ih => intro idx; simp [Linear.loadFrom, ih]

/-- Lookup in the shape view is the shape of the looked-up tensor. -/
theorem alookup_shapesOf (k : PKey) :
    ∀ sd : StateDict, alookup k (shapesOf sd) = (alookup k sd).map Tensor.shape := by
  intro sd
  induction sd with
  | nil => rfl
  | cons kt rest ih =>
    obtain ⟨k₁, t⟩ := kt
    by_cases hk : k₁ = k
    · simp [shapesOf, hk]
    · simpa [shapesOf, hk] using ih

/-- Inversion of a successful `load_checkpoint`: the file held a checkpoint
whose hyperparameters extracted, whose width list was nonempty, whose
`state_dict` shape-checked against the rebuilt network, and the result is the
rebuilt network with the stored parameters copied in. -/
theorem load_checkpoint_ok_inv {g : Gen} {pos : Nat} {fs : FS} {p : String}
    {m : Network} (h : load_checkpoint g pos fs p = .ok m) :
    ∃ d i o h0 rest sdv,
      fs p = some d ∧
      extractHyper d = .ok (i, o, h0 :: rest) ∧
      alookup "state_dict" d = some (.sd sdv) ∧
      (loadReport (networkNew! i o h0 rest g pos) sdv).isEmpty = true ∧
      m = applySd (networkNew! i o h0 rest g pos) sdv := by
  cases hfs : fs p with
  | none =>
    rw [show load_checkpoint g pos fs p = .error (.fileNotFound p) by
      simp [load_checkpoint, torch_load, hfs, Bind.bind, Except.bind]] at h
    exact Except.noConfusion h
  | some d =>
    have htl : torch_load fs p = .ok d := by simp [torch_load, hfs]
    cases hex : extractHyper d with
    | error e =>
      rw [show load_checkpoint g pos fs p = .error e by
        simp [load_checkpoint, htl, hex, Bind.bind, Except.bind]] at h
      exact Except.noConfusion h
    | ok iox =>
      obtain ⟨i, o, hl⟩ := iox
      cases hl with
      | nil =>
        rw [show load_checkpoint g pos fs p = .error .indexError by
          simp [load_checkpoint, htl, hex, buildNetwork, networkNew,
            Bind.bind, Except.bind]] at h
        exact Except.noConfusion h
      | cons h0 rest =>
        cases h₄ : alookup "state_dict" d with
        | none =>
          rw [show load_checkpoint g pos fs p = .error (.keyError "state_dict") by
            simp [load_checkpoint, htl, hex, buildNetwork, networkNew, dget,
              h₄, Bind.bind, Except.bind]] at h
          exact Except.noConfusion h
        | some v =>
          cases v with
          | num nn =>
            rw [show load_checkpoint g pos fs p =
                .error (.typeError "state_dict") by
              simp [load_checkpoint, htl, hex, buildNetwork, networkNew, dget,
                CVal.asSd, h₄, Bind.bind, Except.bind]] at h
            exact Except.noConfusion h
          | nums ll =>
            rw [show load_checkpoint g pos fs p =
                .error (.typeError "state_dict") by
              simp [load_checkpoint, htl, hex, buildNetwork, networkNew, dget,
                CVal.asSd, h₄, Bind.bind, Except.bind]] at h
            exact Except.noConfusion h
          | sd sdv =>
            by_cases hemp :
                (loadReport (networkNew! i o h0 rest g pos) sdv).isEmpty = true
            · rw [show load_checkpoint g pos fs p =
                  .ok (applySd (networkNew! i o h0 rest g pos) sdv) by
                simp [load_checkpoint, htl, hex, buildNetwork, networkNew,
                  dget, CVal.asSd, h₄, load_state_dict_ok hemp, Bind.bind,
                  Except.bind, Except.mapError, pure, Except.pure]] at h
              exact ⟨d, i, o, h0, rest, sdv, rfl, hex, h₄, hemp,
                (Except.ok.inj h).symm⟩
            · rw [show load_checkpoint g pos fs p = .error
                  (.runtimeError (loadReport (networkNew! i o h0 rest g pos) sdv)) by
                simp [load_checkpoint, htl, hex, buildNetwork, networkNew,
                  dget, CVal.asSd, h₄,
                  load_state_dict_error ((Bool.not_eq_true _).mp hemp),
                  Bind.bind, Except.bind, Except.mapError]] at h
              exact Except.noConfusion h

/-- Claim C8: checkpoint save and load round-trip.  For every well-formed
`Network`, building the checkpoint dictionary from it, saving it with
`torch.save`, and calling `load_checkpoint` on that file returns a model with
the same input size, output size and hidden-layer widths, and the same
`state_dict` (every parameter tensor), regardless of the randomness used to
re-initialise the rebuilt network. -/
theorem claim_C8 (m : Network) (g : Gen) (pos : Nat) (fs : FS) (p : String)
    (hwf : m.wellFormed = true) :
    ∃ m₁, load_checkpoint g pos (torch_save fs p (checkpoint m)) p = .ok m₁ ∧
      m₁.input_size = m.input_size ∧
      m₁.output_size = m.output_size ∧
      m₁.hidden_layers.map Linear.out_features =
        m.hidden_layers.map Linear.out_features ∧
      stateDict m₁ = stateDict m := by
  cases hw : m.hidden_layers.map Linear.out_features with
  | nil =>
    exfalso
    have hnil : m.hidden_layers = [] := List.map_eq_nil_iff.mp hw
    simp [Network.wellFormed, hnil] at hwf
  | cons w0 wrest =>
    have hshape_m : shapesOf (stateDict m) =
        expectedShapes m.input_size m.output_size (w0 :: wrest) := by
      rw [stateDict_shapes_of_wf hwf, hw]
    have hshape_n : shapesOf (stateDict
        (networkNew! m.input_size m.output_size w0 wrest g pos)) =
        expectedShapes m.input_size m.output_size (w0 :: wrest) :=
      stateDict_shapes m.input_size m.output_size w0 wrest g pos
    have hemp : (loadReport
        (networkNew! m.input_size m.output_size w0 wrest g pos)
        (stateDict m)).isEmpty = true := by
      rw [loadReport, hshape_n, hshape_m]
      exact reportOf_self_isEmpty
        (nodup_keys_expectedShapes m.input_size m.output_size (w0 :: wrest))
    have htl : torch_load (torch_save fs p (checkpoint m)) p =
        .ok (checkpoint m) := by
      simp [torch_save, torch_load]
    have hex : extractHyper (checkpoint m) =
        .ok (m.input_size, m.output_size, w0 :: wrest) := by
      simp [extractHyper, dget, checkpoint, CVal.asNat, CVal.asNums, hw,
        Bind.bind, Except.bind, pure, Except.pure]
    have hsdv : alookup "state_dict" (checkpoint m) =
        some (.sd (stateDict m)) := by
      simp [checkpoint]
    have hlc : load_checkpoint g pos (torch_save fs p (checkpoint m)) p =
        .ok (applySd (networkNew! m.input_size m.output_size w0 wrest g pos)
          (stateDict m)) := by
      simp [load_checkpoint, htl, hex, buildNetwork, networkNew, dget,
        hsdv, CVal.asSd, load_state_dict_ok hemp, Bind.bind,
        Except.bind, Except.mapError, pure, Except.pure]
    refine ⟨_, hlc, rfl, rfl, ?_, ?_⟩
    · simp only [applySd]
      rw [applyHidden_map_out]
      simp only [networkNew!]
      rw [mkLayers_map_out]
    · rw [stateDict_applySd]
      apply map_lookup_self
      · rw [← shapesOf_keys, ← shapesOf_keys, hshape_n, hshape_m]
      · rw [← shapesOf_keys, hshape_m]
        exact nodup_keys_expectedShapes m.input_size m.output_size (w0 :: wrest)

/-- Concrete well-formed network for the witnesses: `Network(3, 2, [2])` with
zero-stream initialisation. -/
def witnessNet : Network := networkNew! 3 2 2 [] (fun _ => 0) 0

/-- File system holding the saved checkpoint of `witnessNet`. -/
def witnessFS : FS := torch_save (fun _ => none) "checkpoint.pth" (checkpoint witnessNet)

/-- Witness for claim C8: the round trip at `Network(3, 2, [2])`. -/
theorem claim_C8_witness :
    ∃ m₁, load_checkpoint (fun _ => 1) 0
        (torch_save (fun _ => none) "checkpoint.pth" (checkpoint witnessNet))
        "checkpoint.pth" = .ok m₁ ∧
      m₁.input_size = witnessNet.input_size ∧
      m₁.output_size = witnessNet.output_size ∧
      m₁.hidden_layers.map Linear.out_features =
        witnessNet.hidden_layers.map Linear.out_features ∧
      stateDict m₁ = stateDict witnessNet :=
  claim_C8 witnessNet (fun _ => 1) 0 (fun _ => none) "checkpoint.pth" (by decide)

/-- Value of a successful `Except`, with a fallback. -/
def exGet {ε α : Type} (e : Except ε α) (dflt : α) : α :=
  match e with
  | .ok a => a
  | .error _ => dflt

/-- Claim C9: the model returned by `load_checkpoint` depends only on the
checkpoint file contents — two runs on the same file, under different random
initialisation inside the `fc_model.Network` constructor, return models with
equal parameters, because `load_state_dict` overwrites every parameter tensor
of the freshly constructed network. -/
theorem claim_C9 (g₁ g₂ : Gen) (p₁ p₂ : Nat) (fs : FS) (p : String)
    (m₁ m₂ : Network)
    (h₁ : load_checkpoint g₁ p₁ fs p = .ok m₁)
    (h₂ : load_checkpoint g₂ p₂ fs p = .ok m₂) :
    stateDict m₁ = stateDict m₂ := by
  obtain ⟨d, i, o, h0, rest, sdv, hfs, hex, hsd, hemp, rfl⟩ :=
    load_checkpoint_ok_inv h₁
  obtain ⟨d₂, i₂, o₂, h0₂, rest₂, sdv₂, hfs₂, hex₂, hsd₂, hemp₂, rfl⟩ :=
    load_checkpoint_ok_inv h₂
  rw [hfs] at hfs₂
  obtain rfl : d = d₂ := Option.some.inj hfs₂
  rw [hex] at hex₂
  obtain ⟨rfl, rfl, rfl, rfl⟩ : i = i₂ ∧ o = o₂ ∧ h0 = h0₂ ∧ rest = rest₂ := by
    have := Except.ok.inj hex₂
    simp only [Prod.mk.injEq, List.cons.injEq] at this
    exact ⟨this.1, this.2.1, this.2.2.1, this.2.2.2⟩
  rw [hsd] at hsd₂
  obtain rfl : sdv = sdv₂ := by
    have := Option.some.inj hsd₂
    exact CVal.sd.inj this
  rw [stateDict_applySd, stateDict_applySd]
  have hkeys : (stateDict (networkNew! i o h0 rest g₁ p₁)).map Prod.fst =
      (stateDict (networkNew! i o h0 rest g₂ p₂)).map Prod.fst := by
    rw [← shapesOf_keys, ← shapesOf_keys, stateDict_shapes, stateDict_shapes]
  apply map_lookup_congr hkeys
  intro k hk
  have hk₂ : k ∈ (shapesOf (stateDict (networkNew! i o h0 rest g₁ p₁))).map
      Prod.fst := by
    rw [shapesOf_keys]
    exact hk
  have hsome := @keys_present_of_isEmpty
    (shapesOf (stateDict (networkNew! i o h0 rest g₁ p₁)))
    (shapesOf sdv) hemp k hk₂
  rw [alookup_shapesOf] at hsome
  simpa using hsome

/-- Witness for claim C9: two loads of the same stored checkpoint with
different randomness agree on every parameter. -/
theorem claim_C9_witness :
    stateDict (exGet (load_checkpoint (fun _ => 0) 0 witnessFS "checkpoint.pth")
        witnessNet) =
      stateDict (exGet (load_checkpoint (fun _ => 1) 7 witnessFS "checkpoint.pth")
        witnessNet) :=
  claim_C9 (fun _ => 0) (fun _ => 1) 0 7 witnessFS "checkpoint.pth" _ _
    rfl rfl

/-- Claim C6 counterexample: the claim "executing the notebooks creates or
modifies no external state other than the single checkpoint file" is false —
the dataset-loading cells download FashionMNIST (and MNIST) to local
directories, a file-system effect distinct from any write to
`checkpoint.pth`. -/
theorem claim_C6_counterexample :
    ¬ ∀ e ∈ notebookEffects, e = FsEffect.saveFile "checkpoint.pth" := by
  intro hall
  have hmem : FsEffect.datasetDownload "~/.pytorch/F_MNIST_data/" ∈
      notebookEffects := by
    simp [notebookEffects, nb3Effects, nb6Effects]
  exact FsEffect.noConfusion (hall _ hmem)

/-- Claim C6 as amended: the checkpoint file is the only file written by the
save helper — every `torch.save` effect of the notebooks targets
`"checkpoint.pth"` (there are exactly the two such writes) — but executing
the notebooks additionally downloads the FashionMNIST and MNIST datasets
into their root directories. -/
theorem claim_C6_amended :
    (notebookEffects.filter fun e =>
        match e with
        | FsEffect.saveFile _ => true
        | _ => false) =
      [FsEffect.saveFile "checkpoint.pth", FsEffect.saveFile "checkpoint.pth"] ∧
    FsEffect.datasetDownload "~/.pytorch/F_MNIST_data/" ∈ notebookEffects ∧
    FsEffect.datasetDownload "~/.pytorch/MNIST_data/" ∈ notebookEffects := by
  refine ⟨rfl, ?_, ?_⟩ <;> simp [notebookEffects, nb3Effects, nb6Effects]

/-- Claim C7: backpropagation through the graph of `z = (x**2).mean()`
computes the analytic gradient — for every tensor `x`, `x.grad` is `None`
before any backward call, and after `z.backward()` it holds
`2 * x / torch.numel(x)`. -/
theorem claim_C7 (x : List ℚ) :
    (mkVar x).grad = none ∧
    (backward (mkVar x)).grad =
      some (x.map fun v => 2 * v / (x.length : ℚ)) := by
  refine ⟨rfl, ?_⟩
  simp only [backward, mkVar, zGraph, Expr.vjp, Expr.eval, List.headD]
  congr 1
  rw [List.length_map, List.map_map, List.zipWith_map_left, List.zipWith_same]
  refine List.map_congr_left ?_
  intro a _
  simp only [Function.comp_apply]
  ring

/-- Model state after one pass of the optimizer over the batches. -/
def modelAfter {σ β : Type} (stepFn : σ → β → σ) : σ → List β → σ
  | m, [] => m
  | m, b :: bs => modelAfter stepFn (stepFn m b) bs

/-- Value of `running_loss` after the inner loop, starting from `rl`. -/
def runningLossFrom {σ β : Type} (lossFn : σ → β → ℚ) (stepFn : σ → β → σ) :
    σ → ℚ → List β → ℚ
  | _, rl, [] => rl
  | m, rl, b :: bs => runningLossFrom lossFn stepFn (stepFn m b) (rl + lossFn m b) bs

/-- A Python `for … else` whose body never executes `break` runs the `else`
suite exactly once, on the state left by the completed iteration. -/
theorem forElse_inl {σ β : Type} (body : σ → β → σ ⊕ σ) (f : σ → β → σ)
    (els : σ → σ) (h : ∀ s b, body s b = .inl (f s b)) :
    ∀ (xs : List β) (s : σ), forElse body els xs s = els (xs.foldl f s) := by
  intro xs
  induction xs with
  | nil => intro s; rfl
  | cons b bs ih =>
    intro s
    show (match body s b with
      | .inl s₁ => forElse body els bs s₁
      | .inr s₁ => s₁) = _
    rw [h s b]
    simpa using ih (f s b)

/-- The inner-loop fold threads the model and `running_loss` and leaves the
printed lines untouched. -/
theorem foldl_epochStep {σ β : Type} (lossFn : σ → β → ℚ) (stepFn : σ → β → σ) :
    ∀ (bs : List β) (m : σ) (rl : ℚ) (pr : List ℚ),
      bs.foldl (fun (s : EpochState σ) b =>
          ⟨stepFn s.model b, s.running_loss + lossFn s.model b, s.printed⟩)
          ⟨m, rl, pr⟩ =
        ⟨modelAfter stepFn m bs, runningLossFrom lossFn stepFn m rl bs, pr⟩ := by
  intro bs
  induction bs with
  | nil => intro m rl pr; rfl
  | cons b rest ih =>
    intro m rl pr
    simp only [List.foldl_cons, modelAfter, runningLossFrom]
    exact ih (stepFn m b) (rl + lossFn m b) pr

/-- One epoch resets `running_loss` to `0`, folds the batches, and appends
exactly one printed line: the epoch's average loss. -/
theorem runEpoch_eq {σ β : Type} (lossFn : σ → β → ℚ) (stepFn : σ → β → σ)
    (batches : List β) (m : σ) (pr : List ℚ) :
    runEpoch lossFn stepFn batches m pr =
      ⟨modelAfter stepFn m batches,
        runningLossFrom lossFn stepFn m 0 batches,
        pr ++ [runningLossFrom lossFn stepFn m 0 batches / (batches.length : ℚ)]⟩ := by
  unfold runEpoch
  rw [forElse_inl (innerBody lossFn stepFn)
    (fun (s : EpochState σ) b =>
      ⟨stepFn s.model b, s.running_loss + lossFn s.model b, s.printed⟩)
    (printAvg batches.length) (fun s b => rfl)]
  rw [foldl_epochStep]
  rfl

/-- The outer loop prints one line per epoch: the running list of printed
lines after `k` epochs. -/
theorem trainLoop_printed {σ β : Type} (lossFn : σ → β → ℚ) (stepFn : σ → β → σ)
    (batches : List β) :
    ∀ (k : Nat) (m : σ) (pr : List ℚ),
      (trainLoop lossFn stepFn batches k m pr).2 =
        pr ++ (List.range k).map fun j =>
          runningLossFrom lossFn stepFn
            ((fun mm => modelAfter stepFn mm batches)^[j] m) 0 batches /
            (batches.length : ℚ) := by
  intro k
  induction k with
  | zero => intro m pr; simp [trainLoop]
  | succ k ih =>
    intro m pr
    show (trainLoop lossFn stepFn batches k
        (runEpoch lossFn stepFn batches m pr).model
        (runEpoch lossFn stepFn batches m pr).printed).2 = _
    rw [runEpoch_eq, ih, List.range_succ_eq_map]
    simp only [List.map_cons, List.map_map, List.append_assoc,
      List.singleton_append, Function.iterate_zero_apply]
    congr 2

/-- Claim C10: in the training loop the `else` clause attached to the inner
`for` over `trainloader` always executes because the loop body contains no
`break` (the body always continues); hence the line printing
`running_loss / len(trainloader)` runs exactly once per epoch — exactly
`epochs = 5` times in total — and `running_loss` is accumulated from `0` at
the start of every epoch. -/
theorem claim_C10 {σ β : Type} (lossFn : σ → β → ℚ) (stepFn : σ → β → σ)
    (batches : List β) (m₀ : σ) :
    (∀ (s : EpochState σ) (b : β), innerBody lossFn stepFn s b =
      Sum.inl ⟨stepFn s.model b, s.running_loss + lossFn s.model b, s.printed⟩) ∧
    epochs = 5 ∧
    (trainPrints lossFn stepFn batches m₀).length = epochs ∧
    trainPrints lossFn stepFn batches m₀ =
      (List.range epochs).map fun k =>
        runningLossFrom lossFn stepFn
          ((fun mm => modelAfter stepFn mm batches)^[k] m₀) 0 batches /
          (batches.length : ℚ) := by
  have hpr := trainLoop_printed lossFn stepFn batches epochs m₀ []
  refine ⟨fun s b => rfl, rfl, ?_, ?_⟩
  · rw [trainPrints, hpr]
    simp [epochs]
  · rw [trainPrints, hpr]
    simp

end DtuMlops
